import Mathlib

/-!
Shallow embedding of the trace/visualization state engine of
`src/ngspiceSimulation/plot_window.py` (the eSim plotting window), written to
check the natural-language specification of that engine against the code.

Conventions used throughout:

* Python floats are modelled as exact rationals (`ℚ`); float rounding is not
  modelled.  Python float `/`, `//` and `%` keep their Python semantics:
  `ZeroDivisionError` on a zero divisor, floor-based `//` and `%`.
* Python dicts keyed by trace index or name are modelled as insertion-ordered
  association lists (`List (key × value)`); iteration order of a dict is the
  list order, membership and indexing are `List.lookup`, and assignment
  `d[k] = v` is `dictInsert`.
* Fallible code returns `Except`; a `QMessageBox.warning` followed by `return`
  is an `Except.error` carrying the reported fault, and an uncaught Python
  exception is an `Except.error` carrying a crash-marked fault.
* Rendering calls (matplotlib `step`, `plot`, tick and label setters) are
  modelled by returning the data handed to the render surface.
-/

namespace PlotWindow

/-- Colour values as the code handles them: fixed palette entries and saved
colours are hex strings, and the golden-ratio fallback is a Qt colour built by
`QtGui.QColor.fromHsvF(h, s, v)`.  Generated colours are stored with their
exact HSV parameters; the code stores `color.name()`, a lowercase hex string,
which never collides with the uppercase palette strings. -/
inductive TraceColor where
  | hex (s : String)
  | hsvF (h s v : ℚ)
deriving DecidableEq, Repr

/-- The fixed 12-colour palette `VIBRANT_COLOR_PALETTE` (plot_window.py,
lines 62-75). -/
def VIBRANT_COLOR_PALETTE : List TraceColor :=
  [.hex "#E53935", .hex "#1E88E5", .hex "#43A047", .hex "#FB8C00",
   .hex "#8E24AA", .hex "#00ACC1", .hex "#D81B60", .hex "#6D4C41",
   .hex "#FDD835", .hex "#039BE5", .hex "#C0CA33", .hex "#37474F"]

/-- Constant `DEFAULT_LINE_THICKNESS = 1.5` (line 53). -/
def DEFAULT_LINE_THICKNESS : ℚ := 3 / 2

/-- Constant `DEFAULT_VERTICAL_SPACING = 1.2` (line 54). -/
def DEFAULT_VERTICAL_SPACING : ℚ := 6 / 5

/-- Constant `TIME_UNIT_THRESHOLD_NS = 1e-6` (line 78). -/
def TIME_UNIT_THRESHOLD_NS : ℚ := 1 / 1000000

/-- Constant `TIME_UNIT_THRESHOLD_US = 1e-3` (line 79). -/
def TIME_UNIT_THRESHOLD_US : ℚ := 1 / 1000

/-- Constant `TIME_UNIT_THRESHOLD_MS = 1` (line 80). -/
def TIME_UNIT_THRESHOLD_MS : ℚ := 1

/-- The golden-ratio hue step `0.618033988749895` used by the colour fallback
(line 917). -/
def GOLDEN_HUE_STEP : ℚ := 618033988749895 / 1000000000000000

/-- Python dict assignment `d[k] = v` on an insertion-ordered association
list: an existing key keeps its position, a new key is appended. -/
def dictInsert {α : Type} (k : Nat) (v : α) (d : List (Nat × α)) : List (Nat × α) :=
  if (d.lookup k).isSome then d.map (fun p => if p.1 = k then (k, v) else p)
  else d ++ [(k, v)]

/-- Maximum of a list of samples, as computed by `np.max`.  The empty case, on
which `np.max` raises, is given the junk value 0 and is excluded by the
nonemptiness hypotheses of the theorems below. -/
def npMax : List ℚ → ℚ
  | [] => 0
  | v :: vs => vs.foldl max v

theorem foldl_max_init_le (l : List ℚ) (a : ℚ) : a ≤ l.foldl max a := by
  induction l generalizing a with
  | nil => simp
  | cons b t ih => exact le_trans (le_max_left a b) (ih (max a b))

theorem le_foldl_max_of_mem {l : List ℚ} {x : ℚ} (hx : x ∈ l) (a : ℚ) :
    x ≤ l.foldl max a := by
  induction l generalizing a with
  | nil => cases hx
  | cons b t ih =>
    rcases List.mem_cons.mp hx with h | h
    · subst h
      exact le_trans (le_max_right a x) (foldl_max_init_le t (max a x))
    · exact ih h (max a b)

theorem foldl_max_mem (l : List ℚ) (a : ℚ) : l.foldl max a = a ∨ l.foldl max a ∈ l := by
  induction l generalizing a with
  | nil => exact Or.inl rfl
  | cons b t ih =>
    rcases ih (max a b) with h | h
    · rcases max_choice a b with hm | hm
      · exact Or.inl (by rw [List.foldl_cons, h, hm])
      · exact Or.inr (by rw [List.foldl_cons, h, hm]; exact List.mem_cons_self b t)
    · exact Or.inr (List.mem_cons_of_mem b h)

theorem le_npMax_of_mem {l : List ℚ} {x : ℚ} (hx : x ∈ l) : x ≤ npMax l := by
  cases l with
  | nil => cases hx
  | cons v vs =>
    rcases List.mem_cons.mp hx with h | h
    · subst h; exact foldl_max_init_le vs x
    · exact le_foldl_max_of_mem h v

theorem npMax_mem {l : List ℚ} (h : l ≠ []) : npMax l ∈ l := by
  cases l with
  | nil => exact absurd rfl h
  | cons v vs =>
    rcases foldl_max_mem vs v with hm | hm
    · rw [npMax, hm]; exact List.mem_cons_self v vs
    · exact List.mem_cons_of_mem v hm

/-- Slice of the external `DataExtraction` provider consumed by the plot
window: trace names `NBList`, the independent axis `x`, per-trace sample
series `y`, and the voltage/current split point `volts_length`. -/
structure DataExt where
  NBList : List String
  x : List ℚ
  y : List (List ℚ)
  volts_length : Nat
deriving DecidableEq

/-- Analysis kinds reported by `DataExtraction` (`plot_type[0]`). -/
inductive AnalysisKind where
  | ac | dc | transient
deriving DecidableEq

/-- One drawable trace of the digital timing view, as handed to the render
surface by `plot_timing_diagram` (lines 1430-1441): the step polyline drawn by
`self.axes.step(time_data, logic_offset, where="post", ...)`. -/
structure TimingTrace where
  idx : Nat
  ySeries : List ℚ
  stepWhere : String
  color : TraceColor
  label : String
  thickness : ℚ
deriving DecidableEq

instance : Inhabited TimingTrace :=
  ⟨⟨0, [], "", .hex "", "", 0⟩⟩

/-- Everything `plot_timing_diagram` hands to the render surface or stores on
the window: the drawn traces in draw order (list position = rank), the y-axis
ticks and labels, the effective `self.logic_threshold`, and the computed
global maximum and vertical spacing. -/
structure TimingResult where
  traces : List TimingTrace
  yticks : List ℚ
  ylabels : List String
  logic_threshold : ℚ
  vmax : ℚ
  spacing : ℚ
deriving DecidableEq

/-- Visible trace indices in registry order:
`[i for i, v in self.trace_visibility.items() if v]` (line 1397); dict
iteration order is insertion order, which is trace-index order. -/
def visibleIndicesOf (trace_visibility : List (Nat × Bool)) : List Nat :=
  (trace_visibility.filter (fun p => p.2)).map (fun p => p.1)

/-- Candidate pool for the global extrema (lines 1401-1404): visible
voltage-like traces, falling back to all visible traces when none is
voltage-like. -/
def timingCandidates (volts_length : Nat) (visible_indices : List Nat) : List Nat :=
  let voltage_indices := visible_indices.filter (fun i => decide (i < volts_length))
  if voltage_indices = [] then visible_indices else voltage_indices

/-- Digital timing diagram builder, `plot_timing_diagram` (lines 1395-1474).
With no visible trace the method returns without drawing (`none`).  Threshold
auto mode is the spinbox sitting at its minimum (line 1414); `vmin` is
computed by the code but never used afterwards, so it is not modelled.  The
per-trace annotation texts and the title are pure rendering and are not
modelled. -/
def plot_timing_diagram (d : DataExt) (trace_visibility : List (Nat × Bool))
    (trace_colors : List (Nat × TraceColor)) (trace_thickness : List (Nat × ℚ))
    (trace_names : List (Nat × String))
    (threshold_spinbox_value threshold_spinbox_minimum : ℚ)
    (vertical_spacing : ℚ) : Option TimingResult :=
  let visible_indices := visibleIndicesOf trace_visibility
  if visible_indices = [] then none
  else
    let voltage_indices := timingCandidates d.volts_length visible_indices
    let all_voltage_data := voltage_indices.flatMap (fun idx => d.y.getD idx [])
    let vmax := npMax all_voltage_data
    let logic_threshold :=
      if threshold_spinbox_value = threshold_spinbox_minimum then 7 / 10 * vmax
      else threshold_spinbox_value
    let spacing := vertical_spacing * vmax
    let drawOrder := visible_indices.reverse.enum
    let traces := drawOrder.map (fun rankIdx =>
      let raw_data := d.y.getD rankIdx.2 []
      let logic_data := raw_data.map (fun v => if logic_threshold < v then vmax else 0)
      let logic_offset := logic_data.map (fun v => v + (rankIdx.1 : ℚ) * spacing)
      { idx := rankIdx.2
        ySeries := logic_offset
        stepWhere := "post"
        color := (trace_colors.lookup rankIdx.2).getD (.hex "blue")
        label := (trace_names.lookup rankIdx.2).getD (d.NBList.getD rankIdx.2 "")
        thickness := (trace_thickness.lookup rankIdx.2).getD DEFAULT_LINE_THICKNESS })
    let yticks := drawOrder.map (fun rankIdx => (rankIdx.1 : ℚ) * spacing + vmax / 2)
    let ylabels := drawOrder.map (fun rankIdx =>
      (trace_names.lookup rankIdx.2).getD (d.NBList.getD rankIdx.2 ""))
    some { traces := traces, yticks := yticks, ylabels := ylabels,
           logic_threshold := logic_threshold, vmax := vmax, spacing := spacing }

/-- Axis unit rescale, `set_time_axis_label` (lines 1476-1508).  The state of
the drawn lines is the list of their x-series; the canonical axis `x` is
`self.obj_dataext.x`, which the method never mutates.  Returns the axis label
and the updated x-series of every active line: for a non-unit scale every
line receives `scaled_x = time_data * scale`, recomputed from the canonical
axis. -/
def set_time_axis_label (x : List ℚ) (active_lines : List (List ℚ)) :
    String × List (List ℚ) :=
  if x.length < 2 then ("Time (s)", active_lines)
  else
    let time_span := x.getLastI - x.headI
    let unitScale : String × ℚ :=
      if time_span < TIME_UNIT_THRESHOLD_NS then ("ns", 1000000000)
      else if time_span < TIME_UNIT_THRESHOLD_US then ("µs", 1000000)
      else if time_span < TIME_UNIT_THRESHOLD_MS then ("ms", 1000)
      else ("s", 1)
    let scaled :=
      if unitScale.2 ≠ 1 then active_lines.map (fun _ => x.map (fun t => t * unitScale.2))
      else active_lines
    ("Time (" ++ unitScale.1 ++ ")", scaled)

/-- Cursor state: the stored positions `self.cursor_positions` (entries are
`event.xdata`, which Qt may deliver as `None`), and the measurements shown on
`self.delta_label` and `self.measure_label`.  `self.cursor_lines` tracks
`self.cursor_positions` index for index along the `set_cursor` and
`clear_cursors` paths, so the list of positions stands for both. -/
structure CursorState where
  cursor_positions : List (Option ℚ)
  delta_display : Option ℚ
  freq_display : Option ℚ
deriving DecidableEq

/-- Cursor placement, `set_cursor` (lines 1549-1586): replace the entry at
`cursor_num` when the list is long enough, otherwise append; then, when the
first two stored positions exist, display `delta = abs(p1 - p0)` and, under
AC analysis, `freq = 1.0 / delta if delta != 0 else 0`. -/
def set_cursor (plot_type : AnalysisKind) (st : CursorState) (cursor_num : Nat)
    (x_pos : Option ℚ) : CursorState :=
  let positions :=
    if cursor_num < st.cursor_positions.length then st.cursor_positions.set cursor_num x_pos
    else st.cursor_positions ++ [x_pos]
  if 2 ≤ positions.length ∧ ∀ p ∈ positions.take 2, p.isSome = true then
    let p0 := (positions.getD 0 none).getD 0
    let p1 := (positions.getD 1 none).getD 0
    let delta := |p1 - p0|
    { cursor_positions := positions
      delta_display := some delta
      freq_display :=
        if plot_type = .ac then some (if delta ≠ 0 then 1 / delta else 0)
        else st.freq_display }
  else
    { cursor_positions := positions
      delta_display := st.delta_display
      freq_display := st.freq_display }

/-- Colour assignment, `assign_trace_color` (lines 900-921): collect the
colours in use by tracked traces, scan the fixed palette for the first colour
not in use, and fall back to a golden-ratio HSV colour
`QColor.fromHsvF((0.618033988749895 * len(self.trace_colors)) % 1.0, 0.7, 0.8)`
when the palette is exhausted.  Returns the chosen colour together with the
updated `self.trace_colors`;  `% 1.0` on a nonnegative float is `Int.fract`. -/
def assign_trace_color (trace_colors : List (Nat × TraceColor)) (index : Nat) :
    TraceColor × List (Nat × TraceColor) :=
  let used_colors := trace_colors.map Prod.snd
  let available_colors :=
    VIBRANT_COLOR_PALETTE.filter (fun color => decide (color ∉ used_colors))
  match available_colors with
  | c :: _ => (c, dictInsert index c trace_colors)
  | [] =>
    let hue := Int.fract (GOLDEN_HUE_STEP * (trace_colors.length : ℚ))
    let c := TraceColor.hsvF hue (7 / 10) (8 / 10)
    (c, dictInsert index c trace_colors)

/-- Colour prefill inside `load_simulation_data` (lines 767-770): the list
`self.color`, holding the palette colour at `i % len(palette)` for the first
`data_info[0] - 1` indices. -/
def load_simulation_data_colors (data_info_0 : Nat) : List TraceColor :=
  (List.range (data_info_0 - 1)).map
    (fun i => VIBRANT_COLOR_PALETTE.getD (i % VIBRANT_COLOR_PALETTE.length) (.hex ""))

/-- Per-trace state built by `populate_waveform_list`. -/
structure WaveformListState where
  trace_colors : List (Nat × TraceColor)
  trace_thickness : List (Nat × ℚ)
  trace_style : List (Nat × String)
  trace_visibility : List (Nat × Bool)
deriving DecidableEq

/-- Waveform list population, `populate_waveform_list` (lines 821-865): for
every trace index, a colour (saved config by name, else the prefilled
`self.color[i]`, else palette cycling), a thickness and a style (saved or
default), and visibility initialised to `False`. -/
def populate_waveform_list (NBList : List String)
    (saved_colors : List (String × TraceColor)) (saved_thickness : List (String × ℚ))
    (saved_style : List (String × String)) (color : List TraceColor) :
    WaveformListState :=
  { trace_colors := (List.range NBList.length).map (fun i =>
      (i, match saved_colors.lookup (NBList.getD i "") with
          | some c => c
          | none =>
            if i < color.length then color.getD i (.hex "")
            else VIBRANT_COLOR_PALETTE.getD (i % VIBRANT_COLOR_PALETTE.length) (.hex "")))
    trace_thickness := (List.range NBList.length).map (fun i =>
      (i, match saved_thickness.lookup (NBList.getD i "") with
          | some t => t
          | none => DEFAULT_LINE_THICKNESS))
    trace_style := (List.range NBList.length).map (fun i =>
      (i, match saved_style.lookup (NBList.getD i "") with
          | some s => s
          | none => "-"))
    trace_visibility := (List.range NBList.length).map (fun i => (i, false)) }

/-- Composition at dataset load (`load_simulation_data`, lines 758-787, then
`populate_waveform_list`): colour prefill from `data_info[0]`, then list
population against the saved configuration. -/
def load_then_populate (NBList : List String) (data_info_0 : Nat)
    (saved_colors : List (String × TraceColor)) : WaveformListState :=
  populate_waveform_list NBList saved_colors [] []
    (load_simulation_data_colors data_info_0)

/-- Faults of `plot_function`: the three `QMessageBox.warning` + `return`
paths (too few tokens, an operand not in the node list, mixed voltage and
current operands), the caught `ArithmeticError`/`ZeroDivisionError` of the
`eval` call (lines 1850-1854), and two uncaught-crash markers: `evalCrash`
for an operator token that is not a Python binary arithmetic operator
(`eval` raises `SyntaxError`/`NameError`, which the `except` clause does not
catch) and `indexCrash` for ragged sample data (`IndexError`).
`syntaxFault` belongs to the spec-modelled restricted evaluator only: there
an unknown operator token is a recoverable ExpressionFault. -/
inductive PlotFault where
  | tooFewArguments
  | unresolvedOperand
  | mixedSignalTypes
  | arithmeticFault
  | evalCrash
  | indexCrash
  | syntaxFault
deriving DecidableEq

instance exceptDecEq {ε α : Type} [DecidableEq ε] [DecidableEq α] :
    DecidableEq (Except ε α) := fun x y =>
  match x, y with
  | .error a, .error b =>
    if h : a = b then isTrue (by rw [h])
    else isFalse (fun hc => h (Except.error.inj hc))
  | .ok a, .ok b =>
    if h : a = b then isTrue (by rw [h])
    else isFalse (fun hc => h (Except.ok.inj hc))
  | .error _, .ok _ => isFalse (fun hc => Except.noConfusion hc)
  | .ok _, .error _ => isFalse (fun hc => Except.noConfusion hc)

/-- What `plot_function` hands to the render surface: either the parametric
`A vs B` plot (line 1813) or the derived series plot (line 1858). -/
inductive PlotFunctionOut where
  | vsPlot (xData yData : List ℚ) (label : String)
  | funcPlot (x : List ℚ) (result : List ℚ) (label : String)
deriving DecidableEq

/-- Tokens at even positions of the split input, `range(0, len, 2)`. -/
def evenPositionTokens : List String → List String
  | [] => []
  | [a] => [a]
  | a :: _ :: rest => a :: evenPositionTokens rest

/-- Tokens at odd positions of the split input: the operator tokens. -/
def oddPositionTokens : List String → List String
  | [] => []
  | [_] => []
  | _ :: b :: rest => b :: oddPositionTokens rest

/-- Trailing-empty-token strip (lines 1782-1783):
`if function_parts and function_parts[-1] == '': drop it`. -/
def stripTrailingEmpty (tokens : List String) : List String :=
  if tokens.getLast? = some "" then tokens.dropLast else tokens

/-- Structural recursion replacing `List.mapM` over `Except`: evaluate left to
right and abort on the first error, like a Python loop that raises. -/
def mapExcept {α β ε : Type} (f : α → Except ε β) : List α → Except ε (List β)
  | [] => .ok []
  | a :: as =>
    match f a with
    | .error e => .error e
    | .ok b =>
      match mapExcept f as with
      | .error e => .error e
      | .ok bs => .ok (b :: bs)

/-- Python binary arithmetic operators that an odd-position token can denote
inside the string handed to `eval`.  The substituted string is a flat
operand-operator chain, so these are the operator forms `eval` can evaluate
over numeric literals within rational arithmetic (the power operator, which
leaves ℚ, is left out of the model).  Any other token makes `eval` raise an
uncaught `SyntaxError`/`NameError`. -/
inductive PyOp where
  | add | sub | mul | div | floordiv | mod
deriving DecidableEq

/-- Recognition of an operator token by `eval`. -/
def parsePyOp : String → Option PyOp
  | "+" => some .add
  | "-" => some .sub
  | "*" => some .mul
  | "/" => some .div
  | "//" => some .floordiv
  | "%" => some .mod
  | _ => none

/-- Multiplicative-level operators of Python (precedence 13, left
associative); additive operators are precedence 12. -/
def isMulLevel : PyOp → Bool
  | .mul | .div | .floordiv | .mod => true
  | .add | .sub => false

/-- Python float semantics of one multiplicative-level operator on exact
rationals; a zero divisor raises `ZeroDivisionError`.  Additive operators
never reach this function. -/
def applyMulOp : PyOp → ℚ → ℚ → Except Unit ℚ
  | .mul, a, b => .ok (a * b)
  | .div, a, b => if b = 0 then .error () else .ok (a / b)
  | .floordiv, a, b => if b = 0 then .error () else .ok ((⌊a / b⌋ : ℤ) : ℚ)
  | .mod, a, b => if b = 0 then .error () else .ok (a - b * ((⌊a / b⌋ : ℤ) : ℚ))
  | _, _, _ => .error ()

/-- Pending additive operator applied to the sum so far and the finished
multiplicative group; only `.add` and `.sub` occur as pending. -/
def applyAddOp : PyOp → ℚ → ℚ → ℚ
  | .sub, a, b => a - b
  | _, a, b => a + b

/-- Left-to-right evaluation of a flat operand-operator chain with Python
precedence: `accSum` is the sum of the finished additive groups, `pending`
the additive operator awaiting the current group, `cur` the group being
multiplied out. -/
def pyEvalChainGo (accSum : ℚ) (pending : PyOp) (cur : ℚ) :
    List (PyOp × ℚ) → Except Unit ℚ
  | [] => .ok (applyAddOp pending accSum cur)
  | (op, v) :: rest =>
    if isMulLevel op then
      match applyMulOp op cur v with
      | .ok cur2 => pyEvalChainGo accSum pending cur2 rest
      | .error e => .error e
    else pyEvalChainGo (applyAddOp pending accSum cur) op v rest

/-- Evaluation by the Python evaluator of the substituted expression string
`v0 op1 v1 op2 v2 ...` (line 1851). -/
def pyEvalChain (first : ℚ) (rest : List (PyOp × ℚ)) : Except Unit ℚ :=
  pyEvalChainGo 0 .add first rest

/-- Substitution and evaluation of one sample row `j` (lines 1841-1851): each
even-position token is replaced by `str(combo_data[i // 2][j])` and the
joined string goes to `eval`.  Substitution happens before `eval` runs, so an
out-of-range sample index crashes before an unknown operator token does. -/
def pyEvalRow (combo_data : List (List ℚ)) (opTokens : List String) (j : Nat) :
    Except PlotFault ℚ :=
  match mapExcept (fun series =>
      match series.get? j with
      | some v => Except.ok v
      | none => Except.error PlotFault.indexCrash) combo_data with
  | .error e => .error e
  | .ok vals =>
    match mapExcept (fun t =>
        match parsePyOp t with
        | some op => Except.ok op
        | none => Except.error PlotFault.evalCrash) opTokens with
    | .error e => .error e
    | .ok ops =>
      match vals with
      | [] => .error .indexCrash
      | v :: vs =>
        match pyEvalChain v (ops.zip vs) with
        | .ok r => .ok r
        | .error _ => .error .arithmeticFault

/-- The evaluation loop `for j in range(len(combo_data[0]))` (line 1841),
collecting `final_result` and aborting on the first caught fault. -/
def pyEvalSeries (combo_data : List (List ℚ)) (opTokens : List String) :
    Except PlotFault (List ℚ) :=
  mapExcept (pyEvalRow combo_data opTokens) (List.range (combo_data.getD 0 []).length)

/-- Validated front of `plot_function` (lines 1778-1839): strip a trailing
empty token, reject fewer than three tokens, resolve every even-position
token against `NBList` (first match), reject when the count of resolved
operands falls short, branch to the parametric `vs` form, and reject mixed
voltage/current operand sets.  On success the arithmetic form carries the
stripped token list and `combo_data`. -/
inductive PreparedExpr where
  | vsForm (xData yData : List ℚ) (label : String)
  | arithForm (function_parts : List String) (combo_data : List (List ℚ))
deriving DecidableEq

def plot_function_prepare (d : DataExt) (volts_length : Nat)
    (tokens : List String) : Except PlotFault PreparedExpr :=
  let function_parts := stripTrailingEmpty tokens
  if function_parts.length ≤ 2 then .error .tooFewArguments
  else
    let trace_indices := (evenPositionTokens function_parts).filterMap
      (fun tok => d.NBList.findIdx? (fun name => name == tok))
    if trace_indices.length ≠ function_parts.length / 2 + 1 then .error .unresolvedOperand
    else if function_parts.length = 3 ∧ function_parts.getD 1 "" = "vs" then
      .ok (.vsForm (d.y.getD (trace_indices.getD 0 0) [])
        (d.y.getD (trace_indices.getD 1 0) [])
        (function_parts.getD 0 "" ++ " vs " ++ function_parts.getD 2 ""))
    else
      let voltage_indices := trace_indices.filter (fun idx => decide (idx < volts_length))
      let current_indices := trace_indices.filter (fun idx => decide (volts_length ≤ idx))
      if voltage_indices ≠ [] ∧ current_indices ≠ [] then .error .mixedSignalTypes
      else .ok (.arithForm function_parts (trace_indices.map (fun idx => d.y.getD idx [])))

/-- Full `plot_function` (lines 1778-1864): validation, then either the
parametric plot or elementwise evaluation of the substituted expression by
`eval`, labelled `" ".join(function_parts)`. -/
def plot_function (d : DataExt) (volts_length : Nat) (tokens : List String) :
    Except PlotFault PlotFunctionOut :=
  match plot_function_prepare d volts_length tokens with
  | .error e => .error e
  | .ok (.vsForm xData yData label) => .ok (.vsPlot xData yData label)
  | .ok (.arithForm function_parts combo_data) =>
    match pyEvalSeries combo_data (oddPositionTokens function_parts) with
    | .error e => .error e
    | .ok final_result =>
      .ok (.funcPlot d.x final_result (String.intercalate " " function_parts))

/-- Modelled from the spec (section 4.6 and design note 9): the operators of
the restricted four-operator arithmetic grammar, `+ - * /` with parentheses.
The token chains reaching evaluation are flat operand-operator alternations,
so no parenthesis token can occur and the grammar reduces to the chain
grammar over exactly these four operators with standard precedence. -/
inductive ArithOp where
  | add | sub | mul | div
deriving DecidableEq

/-- Modelled from the spec: recognition of the four permitted operator
tokens; anything else is a recoverable syntax fault, never handed to a
general evaluator. -/
def parseArithOp : String → Option ArithOp
  | "+" => some .add
  | "-" => some .sub
  | "*" => some .mul
  | "/" => some .div
  | _ => none

/-- The Python operator denoted by each restricted operator. -/
def toPyOp : ArithOp → PyOp
  | .add => .add
  | .sub => .sub
  | .mul => .mul
  | .div => .div

/-- Modelled from the spec: additive combination in the restricted grammar. -/
def arithApplyAdd : ArithOp → ℚ → ℚ → ℚ
  | .sub, a, b => a - b
  | _, a, b => a + b

/-- Modelled from the spec: evaluation of a flat chain under the restricted
four-operator grammar, multiplication and division binding tighter, left
associative, division by zero an arithmetic fault. -/
def arithEvalChainGo (accSum : ℚ) (pending : ArithOp) (cur : ℚ) :
    List (ArithOp × ℚ) → Except Unit ℚ
  | [] => .ok (arithApplyAdd pending accSum cur)
  | (op, v) :: rest =>
    match op with
    | .mul => arithEvalChainGo accSum pending (cur * v) rest
    | .div =>
      if v = 0 then .error () else arithEvalChainGo accSum pending (cur / v) rest
    | _ => arithEvalChainGo (arithApplyAdd pending accSum cur) op v rest

/-- Modelled from the spec: restricted chain evaluation. -/
def arithEvalChain (first : ℚ) (rest : List (ArithOp × ℚ)) : Except Unit ℚ :=
  arithEvalChainGo 0 .add first rest

/-- Modelled from the spec: one sample row evaluated under the restricted
grammar — named-operand substitution, then the four-operator chain. -/
def arithEvalRow (combo_data : List (List ℚ)) (opTokens : List String) (j : Nat) :
    Except PlotFault ℚ :=
  match mapExcept (fun series =>
      match series.get? j with
      | some v => Except.ok v
      | none => Except.error PlotFault.indexCrash) combo_data with
  | .error e => .error e
  | .ok vals =>
    match mapExcept (fun t =>
        match parseArithOp t with
        | some op => Except.ok op
        | none => Except.error PlotFault.syntaxFault) opTokens with
    | .error e => .error e
    | .ok ops =>
      match vals with
      | [] => .error .indexCrash
      | v :: vs =>
        match arithEvalChain v (ops.zip vs) with
        | .ok r => .ok r
        | .error _ => .error .arithmeticFault

/-- Modelled from the spec: the elementwise evaluation loop under the
restricted grammar. -/
def arithEvalSeries (combo_data : List (List ℚ)) (opTokens : List String) :
    Except PlotFault (List ℚ) :=
  mapExcept (arithEvalRow combo_data opTokens) (List.range (combo_data.getD 0 []).length)

/-- Modelled from the spec: `plot_function` as the spec describes it — the
same validated front, but elementwise evaluation through the restricted
four-operator grammar instead of a general evaluator. -/
def restricted_plot_function (d : DataExt) (volts_length : Nat)
    (tokens : List String) : Except PlotFault PlotFunctionOut :=
  match plot_function_prepare d volts_length tokens with
  | .error e => .error e
  | .ok (.vsForm xData yData label) => .ok (.vsPlot xData yData label)
  | .ok (.arithForm function_parts combo_data) =>
    match arithEvalSeries combo_data (oddPositionTokens function_parts) with
    | .error e => .error e
    | .ok final_result =>
      .ok (.funcPlot d.x final_result (String.intercalate " " function_parts))

theorem take_two_of_getD (l : List (Option ℚ)) (a b : Option ℚ)
    (h0 : l.getD 0 none = a) (h1 : l.getD 1 none = b) (ha : a.isSome) (hb : b.isSome) :
    l.take 2 = [a, b] ∧ 2 ≤ l.length := by
  match l with
  | [] =>
    exfalso
    rw [← h0] at ha
    simp at ha
  | [x] =>
    exfalso
    have hb1 : b = none := by rw [← h1]; rfl
    rw [hb1] at hb
    simp at hb
  | x :: y :: t =>
    simp [List.getD] at h0 h1
    subst h0; subst h1
    exact ⟨rfl, by simp⟩

/-- C5: after a cursor update, whenever both cursor slots hold a position the
displayed delta is `|pos1 - pos0|`, and under AC analysis the displayed
frequency is `1/delta`, with `delta = 0` reported as 0 rather than raising a
division fault. -/
theorem set_cursor_delta_and_frequency
    (plot_type : AnalysisKind) (st : CursorState) (cursor_num : Nat)
    (x_pos : Option ℚ) (res : CursorState) (p0 p1 : ℚ)
    (hres : set_cursor plot_type st cursor_num x_pos = res)
    (h0 : res.cursor_positions.getD 0 none = some p0)
    (h1 : res.cursor_positions.getD 1 none = some p1) :
    res.delta_display = some |p1 - p0| ∧
    (plot_type = .ac →
      res.freq_display = some (if |p1 - p0| = 0 then 0 else 1 / |p1 - p0|)) := by
  subst hres
  unfold set_cursor at *
  set P := (if cursor_num < st.cursor_positions.length
    then st.cursor_positions.set cursor_num x_pos
    else st.cursor_positions ++ [x_pos]) with hP
  by_cases hcond : 2 ≤ P.length ∧ ∀ p ∈ P.take 2, p.isSome = true
  · simp only [if_pos hcond] at h0 h1 ⊢
    rw [h0, h1]
    constructor
    · simp
    · intro hac
      rw [if_pos hac]
      by_cases hz : |p1 - p0| = 0
      · simp [hz]
      · simp [hz]
  · exfalso
    simp only [if_neg hcond] at h0 h1
    obtain ⟨ht, hl⟩ := take_two_of_getD P (some p0) (some p1) h0 h1 rfl rfl
    exact hcond ⟨hl, by rw [ht]; simp⟩

/-- C5 witness: the worked example of the spec — `setCursor(0, 2.0)` then
`setCursor(1, 5.0)` under AC analysis reports `delta = 3` and
`frequency = 1/3`. -/
theorem set_cursor_delta_and_frequency_witness :
    (set_cursor .ac (set_cursor .ac ⟨[], none, none⟩ 0 (some 2)) 1 (some 5)).delta_display
      = some 3 ∧
    (set_cursor .ac (set_cursor .ac ⟨[], none, none⟩ 0 (some 2)) 1 (some 5)).freq_display
      = some (1 / 3) := by
  have h := set_cursor_delta_and_frequency .ac
    (set_cursor .ac ⟨[], none, none⟩ 0 (some 2)) 1 (some 5) _ 2 5 rfl
    (by norm_num [set_cursor]) (by norm_num [set_cursor])
  obtain ⟨hd, hf⟩ := h
  have habs : |(5 : ℚ) - 2| = 3 := by norm_num
  rw [habs] at hd hf
  refine ⟨hd, ?_⟩
  rw [hf rfl]
  norm_num

/-- C6: evaluation of `set_cursor` at the failing input.  On a fresh cursor
state a request for slot 1 appends the marker at list index 0 — the storage
of slot 0 — leaving slot 1 empty, and a following request for slot 0
replaces that entry, destroying the slot-1 marker instead of leaving the
other slot unchanged. -/
theorem set_cursor_slot_one_lands_at_slot_zero :
    (set_cursor .transient ⟨[], none, none⟩ 1 (some 2)).cursor_positions = [some 2] ∧
    (set_cursor .transient ⟨[], none, none⟩ 1 (some 2)).cursor_positions.getD 1 none
      = none ∧
    (set_cursor .transient
        (set_cursor .transient ⟨[], none, none⟩ 1 (some 2)) 0 (some 7)).cursor_positions
      = [some 7] := by
  refine ⟨?_, ?_, ?_⟩ <;> rfl

/-- C7: the axis rescale step is idempotent — rescaling the drawn lines a
second time from the same canonical axis leaves both the label and every
drawn x-series exactly as after the first rescale, because scaling always
restarts from the canonical unscaled axis. -/
theorem set_time_axis_label_idempotent (x : List ℚ) (lines : List (List ℚ))
    (h : 2 ≤ x.length) :
    set_time_axis_label x (set_time_axis_label x lines).2 =
      set_time_axis_label x lines := by
  have hx : ¬ x.length < 2 := by omega
  unfold set_time_axis_label
  simp only [if_neg hx]
  split_ifs <;> simp_all [List.map_map]

/-- C7 witness: a two-point axis spanning 0.01 s rescales to milliseconds,
and rescaling twice equals rescaling once. -/
theorem set_time_axis_label_idempotent_witness :
    2 ≤ ([0, 1 / 100] : List ℚ).length ∧
    set_time_axis_label [0, 1 / 100] (set_time_axis_label [0, 1 / 100] [[0, 1 / 100]]).2 =
      set_time_axis_label [0, 1 / 100] [[0, 1 / 100]] ∧
    set_time_axis_label [0, 1 / 100] [[0, 1 / 100]] = ("Time (ms)", [[0, 10]]) := by
  refine ⟨by norm_num, set_time_axis_label_idempotent _ _ (by norm_num), ?_⟩
  norm_num [set_time_axis_label, List.getLastI, List.headI,
    TIME_UNIT_THRESHOLD_NS, TIME_UNIT_THRESHOLD_US, TIME_UNIT_THRESHOLD_MS]
  rfl

theorem lookup_mem_snd {α : Type} (tc : List (Nat × α)) (j : Nat) (c : α)
    (h : tc.lookup j = some c) : c ∈ tc.map Prod.snd := by
  induction tc with
  | nil => simp [List.lookup] at h
  | cons p t ih =>
    obtain ⟨k, v⟩ := p
    rw [List.lookup] at h
    cases hj : (j == k) with
    | true => rw [hj] at h; injection h with h2; simp [h2]
    | false =>
      rw [hj] at h
      exact List.mem_cons_of_mem _ (ih h)

theorem filter_head_is_first {α : Type} (dflt : α) (p : α → Bool) :
    ∀ (l : List α) (c : α) (rest : List α), l.filter p = c :: rest →
      p c = true ∧ ∃ i, i < l.length ∧ l.getD i dflt = c ∧
        ∀ m, m < i → p (l.getD m dflt) = false := by
  intro l
  induction l with
  | nil => intro c rest h; simp at h
  | cons a t ih =>
    intro c rest h
    by_cases ha : p a
    · rw [List.filter_cons_of_pos ha] at h
      injection h with h1 h2
      subst h1
      exact ⟨ha, 0, by simp, rfl, fun m hm => absurd hm (Nat.not_lt_zero m)⟩
    · rw [List.filter_cons_of_neg ha] at h
      obtain ⟨hc, i, hi, hgi, hmlt⟩ := ih c rest h
      refine ⟨hc, i + 1, by simpa using hi, by simpa using hgi, fun m hm => ?_⟩
      match m with
      | 0 => simpa using ha
      | Nat.succ m2 => simpa using hmlt m2 (Nat.lt_of_succ_lt_succ hm)

/-- C8: whenever at least one palette colour is not in use by a tracked
trace, `assign_trace_color` picks the first unused palette colour in scan
order, and the assignment therefore differs from the colour of every tracked
trace. -/
theorem assign_trace_color_first_unused
    (tc : List (Nat × TraceColor)) (index : Nat)
    (hfree : ∃ c ∈ VIBRANT_COLOR_PALETTE, c ∉ tc.map Prod.snd) :
    (assign_trace_color tc index).1 ∈ VIBRANT_COLOR_PALETTE ∧
    (assign_trace_color tc index).1 ∉ tc.map Prod.snd ∧
    (∃ i, i < VIBRANT_COLOR_PALETTE.length ∧
      VIBRANT_COLOR_PALETTE.getD i (.hex "") = (assign_trace_color tc index).1 ∧
      ∀ m, m < i → VIBRANT_COLOR_PALETTE.getD m (.hex "") ∈ tc.map Prod.snd) ∧
    ∀ j c2, tc.lookup j = some c2 → c2 ≠ (assign_trace_color tc index).1 := by
  obtain ⟨c0, hc0p, hc0u⟩ := hfree
  have hmem : c0 ∈ VIBRANT_COLOR_PALETTE.filter
      (fun color => decide (color ∉ tc.map Prod.snd)) :=
    List.mem_filter.mpr ⟨hc0p, by simpa using hc0u⟩
  cases hav : VIBRANT_COLOR_PALETTE.filter (fun color => decide (color ∉ tc.map Prod.snd)) with
  | nil => rw [hav] at hmem; cases hmem
  | cons c rest =>
    have hav2 : VIBRANT_COLOR_PALETTE.filter
        (fun color => !decide (color ∈ tc.map Prod.snd)) = c :: rest := by
      simpa using hav
    have hassign : (assign_trace_color tc index).1 = c := by
      simp [assign_trace_color, hav2]
    obtain ⟨hpc, i, hi, hgi, hmlt⟩ :=
      filter_head_is_first (TraceColor.hex "") _ VIBRANT_COLOR_PALETTE c rest hav
    have hcpal : c ∈ VIBRANT_COLOR_PALETTE := by
      have := List.mem_filter.mp (hav ▸ List.mem_cons_self c rest)
      exact this.1
    have hcu : c ∉ tc.map Prod.snd := by simpa using hpc
    rw [hassign]
    refine ⟨hcpal, hcu, ⟨i, hi, hgi, fun m hm => ?_⟩, fun j c2 hj hne => ?_⟩
    · have := hmlt m hm
      simpa using this
    · exact hcu (hne ▸ lookup_mem_snd tc j c2 hj)

/-- C8 witness: with only the first palette colour in use, the next
assignment receives the second palette colour, unused by any tracked trace. -/
theorem assign_trace_color_first_unused_witness :
    (assign_trace_color [(0, .hex "#E53935")] 3).1 = .hex "#1E88E5" ∧
    (assign_trace_color [(0, .hex "#E53935")] 3).1 ∉
      ([(0, TraceColor.hex "#E53935")].map Prod.snd) := by
  refine ⟨by decide, ?_⟩
  exact (assign_trace_color_first_unused [(0, .hex "#E53935")] 3
    ⟨.hex "#1E88E5", by decide, by decide⟩).2.1

/-- C9: with every palette colour in use, `assign_trace_color` falls back to
the golden-ratio colour `fromHsvF((0.618033988749895 * n) % 1, 0.7, 0.8)`
with `n` the number of assigned traces, and the chosen colour depends only on
the current assignment state, not on the receiving index. -/
theorem assign_trace_color_golden_fallback
    (tc : List (Nat × TraceColor)) (index : Nat)
    (hfull : ∀ c ∈ VIBRANT_COLOR_PALETTE, c ∈ tc.map Prod.snd) :
    (assign_trace_color tc index).1 =
      .hsvF (Int.fract (GOLDEN_HUE_STEP * (tc.length : ℚ))) (7 / 10) (8 / 10) ∧
    ∀ index2 : Nat, (assign_trace_color tc index2).1 = (assign_trace_color tc index).1 := by
  have hnil : VIBRANT_COLOR_PALETTE.filter
      (fun color => !decide (color ∈ tc.map Prod.snd)) = [] := by
    rw [List.filter_eq_nil_iff]
    intro a ha
    simpa using hfull a ha
  constructor
  · simp [assign_trace_color, hnil]
  · intro i2
    simp [assign_trace_color, hnil]

/-- C9 witness: with all twelve palette colours in use the thirteenth
assignment is the golden-ratio colour for `n = 12`, whose hue evaluates to
`fract(0.618033988749895 * 12) = 0.41640786499874`. -/
theorem assign_trace_color_golden_fallback_witness :
    (assign_trace_color
      [(0, .hex "#E53935"), (1, .hex "#1E88E5"), (2, .hex "#43A047"),
       (3, .hex "#FB8C00"), (4, .hex "#8E24AA"), (5, .hex "#00ACC1"),
       (6, .hex "#D81B60"), (7, .hex "#6D4C41"), (8, .hex "#FDD835"),
       (9, .hex "#039BE5"), (10, .hex "#C0CA33"), (11, .hex "#37474F")] 12).1 =
      .hsvF (Int.fract (GOLDEN_HUE_STEP * 12)) (7 / 10) (8 / 10) ∧
    Int.fract (GOLDEN_HUE_STEP * 12) = 20820393249937 / 50000000000000 := by
  constructor
  · have h := assign_trace_color_golden_fallback
      [(0, .hex "#E53935"), (1, .hex "#1E88E5"), (2, .hex "#43A047"),
       (3, .hex "#FB8C00"), (4, .hex "#8E24AA"), (5, .hex "#00ACC1"),
       (6, .hex "#D81B60"), (7, .hex "#6D4C41"), (8, .hex "#FDD835"),
       (9, .hex "#039BE5"), (10, .hex "#C0CA33"), (11, .hex "#37474F")] 12 (by decide)
    simpa using h.1
  · rw [Int.fract]
    norm_num [GOLDEN_HUE_STEP]

theorem lookup_shift {α : Type} (l : List (Nat × α)) (k : Nat) :
    (l.map (fun p => (p.1 + 1, p.2))).lookup (k + 1) = l.lookup k := by
  induction l with
  | nil => rfl
  | cons p t ih =>
    obtain ⟨a, b⟩ := p
    rw [List.map_cons, List.lookup, List.lookup]
    have hbeq : ((k + 1 == a + 1) : Bool) = (k == a) := by
      cases h : (k == a) with
      | true =>
        have hka : k = a := by simpa using h
        subst hka
        simp
      | false =>
        have hka : k ≠ a := by simpa using h
        simp [hka]
    rw [hbeq]
    cases k == a with
    | true => rfl
    | false => exact ih

theorem lookup_range_map {α : Type} :
    ∀ (n : Nat) (f : Nat → α) (j : Nat), j < n →
      ((List.range n).map (fun i => (i, f i))).lookup j = some (f j) := by
  intro n
  induction n with
  | zero => intro f j h; exact absurd h (Nat.not_lt_zero j)
  | succ m ih =>
    intro f j hj
    rw [List.range_succ_eq_map, List.map_cons]
    cases j with
    | zero => rfl
    | succ k =>
      rw [List.lookup]
      have hbeq : ((k + 1 == 0) : Bool) = false := rfl
      rw [hbeq]
      have htail : ((List.range m).map (fun i => i + 1)).map (fun i => (i, f i)) =
          ((List.range m).map (fun i => (i, f (i + 1)))).map (fun p => (p.1 + 1, p.2)) := by
        rw [List.map_map, List.map_map]
        rfl
      rw [htail, lookup_shift]
      exact ih (fun i => f (i + 1)) k (Nat.lt_of_succ_lt_succ hj)

theorem getD_map_range {α : Type} (g : Nat → α) (n i : Nat) (h : i < n) (d : α) :
    ((List.range n).map g).getD i d = g i := by
  have hlen : i < ((List.range n).map g).length := by simpa using h
  rw [List.getD_eq_getElem _ _ hlen, List.getElem_map, List.getElem_range]

/-- C10 (amended): at dataset load every trace index is coloured up front —
the saved snapshot colour when the trace name appears in the loaded
configuration, otherwise the palette colour at `index % 12` — and every trace
starts invisible, so visible implies coloured from the start; and when a
dataset has more than 12 traces whose boundary traces carry no saved colour,
palette cycling makes distinct traces (index 0 and index 12) hold the same
colour before any user action. -/
theorem load_colors_assigned_upfront
    (NBList : List String) (data_info_0 : Nat) (saved : List (String × TraceColor))
    (i : Nat) (hi : i < NBList.length) :
    (load_then_populate NBList data_info_0 saved).trace_colors.lookup i =
      some (match saved.lookup (NBList.getD i "") with
            | some c => c
            | none =>
              VIBRANT_COLOR_PALETTE.getD (i % VIBRANT_COLOR_PALETTE.length) (.hex "")) ∧
    (load_then_populate NBList data_info_0 saved).trace_visibility.lookup i =
      some false ∧
    (12 < NBList.length → saved.lookup (NBList.getD 0 "") = none →
      saved.lookup (NBList.getD 12 "") = none →
      (load_then_populate NBList data_info_0 saved).trace_colors.lookup 0 =
        some (.hex "#E53935") ∧
      (load_then_populate NBList data_info_0 saved).trace_colors.lookup 12 =
        some (.hex "#E53935")) := by
  have hcol : ∀ k, k < NBList.length →
      (load_then_populate NBList data_info_0 saved).trace_colors.lookup k =
        some (match saved.lookup (NBList.getD k "") with
              | some c => c
              | none =>
                VIBRANT_COLOR_PALETTE.getD (k % VIBRANT_COLOR_PALETTE.length) (.hex "")) := by
    intro k hk
    unfold load_then_populate populate_waveform_list
    rw [lookup_range_map NBList.length _ k hk]
    congr 1
    cases saved.lookup (NBList.getD k "") with
    | some c => rfl
    | none =>
      by_cases hlt : k < (load_simulation_data_colors data_info_0).length
      · rw [if_pos hlt]
        have hlen : (load_simulation_data_colors data_info_0).length = data_info_0 - 1 := by
          simp [load_simulation_data_colors]
        rw [hlen] at hlt
        unfold load_simulation_data_colors
        rw [getD_map_range _ _ k hlt]
      · rw [if_neg hlt]
  refine ⟨hcol i hi, ?_, fun h12 hs0 hs12 => ?_⟩
  · unfold load_then_populate populate_waveform_list
    rw [lookup_range_map NBList.length _ i hi]
  · constructor
    · rw [hcol 0 (by omega), hs0]
      rfl
    · rw [hcol 12 h12, hs12]
      rfl

/-- C10 witness: a 13-trace dataset with no saved configuration — traces 0
and 12 both receive the first palette colour up front, and every trace starts
invisible. -/
theorem load_colors_assigned_upfront_witness :
    (load_then_populate
        ["m0", "m1", "m2", "m3", "m4", "m5", "m6", "m7", "m8", "m9", "m10", "m11", "m12"]
        14 []).trace_colors.lookup 0 = some (.hex "#E53935") ∧
    (load_then_populate
        ["m0", "m1", "m2", "m3", "m4", "m5", "m6", "m7", "m8", "m9", "m10", "m11", "m12"]
        14 []).trace_colors.lookup 12 = some (.hex "#E53935") ∧
    (load_then_populate
        ["m0", "m1", "m2", "m3", "m4", "m5", "m6", "m7", "m8", "m9", "m10", "m11", "m12"]
        14 []).trace_visibility.lookup 5 = some false := by
  have h5 := load_colors_assigned_upfront
    ["m0", "m1", "m2", "m3", "m4", "m5", "m6", "m7", "m8", "m9", "m10", "m11", "m12"]
    14 [] 5 (by decide)
  have h0 := load_colors_assigned_upfront
    ["m0", "m1", "m2", "m3", "m4", "m5", "m6", "m7", "m8", "m9", "m10", "m11", "m12"]
    14 [] 0 (by decide)
  obtain ⟨hc0, hc12⟩ := h0.2.2 (by decide) rfl rfl
  exact ⟨hc0, hc12, h5.2.1⟩

/-- C10 counterexample: a 13-trace dataset loaded against a configuration
that pins the colour of the first trace — all thirteen assigned colours are
pairwise distinct, so a dataset with more traces than the 12-colour palette
does not force two traces to hold identical colours. -/
theorem populate_overflow_distinct_colors_counterexample :
    12 < (["n0", "n1", "n2", "n3", "n4", "n5", "n6", "n7", "n8", "n9", "n10", "n11",
        "n12"] : List String).length ∧
    ((load_then_populate
        ["n0", "n1", "n2", "n3", "n4", "n5", "n6", "n7", "n8", "n9", "n10", "n11", "n12"]
        14 [("n0", .hex "#123456")]).trace_colors.map Prod.snd).Nodup := by
  decide

theorem getD_enum_map {α β : Type} (l : List α) (f : Nat × α → β) (r : Nat)
    (h : r < l.length) (dA : α) (dB : β) :
    (l.enum.map f).getD r dB = f (r, l.getD r dA) := by
  have hlen : r < (l.enum.map f).length := by simpa [List.enum_length] using h
  rw [List.getD_eq_getElem _ _ hlen, List.getD_eq_getElem _ _ h]
  rw [List.getElem_map, List.getElem_enum]

/-- C1: for every non-empty visible set the digital timing view draws the
traces in reverse registry order — rank `r` holds the element at position `r`
of the reversed visible list, rank 0 at the bottom — and the drawn y-series
of the rank-`r` trace is, sample for sample,
`(globalMax if raw > threshold else 0) + r * spacing` with
`spacing = verticalSpacingFactor * globalMax`, drawn as a step-after
polyline. -/
theorem timing_reverse_rank_stacking
    (d : DataExt) (vis : List (Nat × Bool)) (tc : List (Nat × TraceColor))
    (tt : List (Nat × ℚ)) (tn : List (Nat × String))
    (sv smin vspace : ℚ) (res : TimingResult)
    (hres : plot_timing_diagram d vis tc tt tn sv smin vspace = some res)
    (r : Nat) (hr : r < (visibleIndicesOf vis).length) :
    res.traces.length = (visibleIndicesOf vis).length ∧
    res.spacing = vspace * res.vmax ∧
    (res.traces.getD r default).idx = (visibleIndicesOf vis).reverse.getD r 0 ∧
    (res.traces.getD r default).stepWhere = "post" ∧
    (res.traces.getD r default).ySeries =
      (d.y.getD ((visibleIndicesOf vis).reverse.getD r 0) []).map
        (fun raw => (if res.logic_threshold < raw then res.vmax else 0)
          + (r : ℚ) * res.spacing) := by
  have hvis : ¬ visibleIndicesOf vis = [] := by
    intro h0
    rw [h0] at hr
    simp at hr
  simp only [plot_timing_diagram] at hres
  rw [if_neg hvis] at hres
  have hrec := Option.some.inj hres
  subst hrec
  have hrl : r < (visibleIndicesOf vis).reverse.length := by simpa using hr
  refine ⟨by simp [List.enum_length], rfl, ?_, ?_, ?_⟩
  · rw [getD_enum_map _ _ r hrl 0 default]
  · rw [getD_enum_map _ _ r hrl 0 default]
  · rw [getD_enum_map _ _ r hrl 0 default]
    rw [List.map_map]
    rfl

/-- C2: whenever the threshold spinbox sits at its minimum (auto mode), the
effective threshold of the timing view is `0.7 * globalMax`, where
`globalMax` bounds every sample of every candidate trace from above and is
attained among the candidate samples; the candidate pool is the visible
voltage-like traces, or all visible traces when none is voltage-like.  The
value is recomputed by each invocation from the current inputs. -/
theorem timing_auto_threshold
    (d : DataExt) (vis : List (Nat × Bool)) (tc : List (Nat × TraceColor))
    (tt : List (Nat × ℚ)) (tn : List (Nat × String))
    (smin vspace : ℚ) (res : TimingResult)
    (hres : plot_timing_diagram d vis tc tt tn smin smin vspace = some res) :
    res.logic_threshold = 7 / 10 * res.vmax ∧
    (∀ idx ∈ timingCandidates d.volts_length (visibleIndicesOf vis),
      ∀ v ∈ d.y.getD idx [], v ≤ res.vmax) ∧
    ((timingCandidates d.volts_length (visibleIndicesOf vis)).flatMap
        (fun idx => d.y.getD idx []) ≠ [] →
      res.vmax ∈ (timingCandidates d.volts_length (visibleIndicesOf vis)).flatMap
        (fun idx => d.y.getD idx [])) := by
  by_cases hvis : visibleIndicesOf vis = []
  · simp only [plot_timing_diagram] at hres
    rw [if_pos hvis] at hres
    cases hres
  · simp only [plot_timing_diagram] at hres
    rw [if_neg hvis] at hres
    have hrec := Option.some.inj hres
    subst hrec
    refine ⟨by simp, fun idx hidx v hv => ?_, fun hne => ?_⟩
    · exact le_npMax_of_mem (List.mem_flatMap.mpr ⟨idx, hidx, hv⟩)
    · exact npMax_mem hne

/-- Render output of the worked two-trace timing example: `visible = [A, B]`,
samples `A = [5, 0]`, `B = [0, 5]`, auto threshold, spacing factor 1.2. -/
def timingExampleRes : TimingResult :=
  ⟨[⟨1, [0, 5], "post", .hex "blue", "B", 3 / 2⟩,
    ⟨0, [11, 6], "post", .hex "blue", "A", 3 / 2⟩],
   [5 / 2, 17 / 2], ["B", "A"], 7 / 2, 5, 6⟩

theorem timing_example_eval :
    plot_timing_diagram ⟨["A", "B"], [0, 1], [[5, 0], [0, 5]], 2⟩
      [(0, true), (1, true)] [] [] [] (-100) (-100) (6 / 5) =
    some timingExampleRes := by
  norm_num [plot_timing_diagram, visibleIndicesOf, timingCandidates, npMax,
    DEFAULT_LINE_THICKNESS, List.enum, List.enumFrom, List.lookup, timingExampleRes]
  intro h
  exact absurd h (by decide)

/-- C1 witness: in the worked example with globalMax 5 and spacing factor
1.2, rank 0 is trace B with baseline 0 (series [0, 5]) and rank 1 is trace A
with baseline 6 (series [11, 6]); spacing is 6. -/
theorem timing_reverse_rank_stacking_witness :
    plot_timing_diagram ⟨["A", "B"], [0, 1], [[5, 0], [0, 5]], 2⟩
      [(0, true), (1, true)] [] [] [] (-100) (-100) (6 / 5) = some timingExampleRes ∧
    (timingExampleRes.traces.getD 1 default).idx = 0 ∧
    (timingExampleRes.traces.getD 1 default).ySeries = [11, 6] ∧
    (timingExampleRes.traces.getD 0 default).idx = 1 ∧
    (timingExampleRes.traces.getD 0 default).ySeries = [0, 5] ∧
    timingExampleRes.spacing = 6 := by
  have h1 := timing_reverse_rank_stacking _ _ _ _ _ _ _ _ _ timing_example_eval 1 (by decide)
  have h0 := timing_reverse_rank_stacking _ _ _ _ _ _ _ _ _ timing_example_eval 0 (by decide)
  refine ⟨timing_example_eval, ?_, ?_, ?_, ?_, ?_⟩
  · rw [h1.2.2.1]; decide
  · rw [h1.2.2.2.2]
    norm_num [timingExampleRes, visibleIndicesOf]
  · rw [h0.2.2.1]; decide
  · rw [h0.2.2.2.2]
    norm_num [timingExampleRes, visibleIndicesOf]
  · rw [h1.2.1]
    norm_num [timingExampleRes]

/-- C2 witness: in the worked example the threshold is in auto mode and
globalMax is 5, so the effective threshold is 3.5. -/
theorem timing_auto_threshold_witness :
    plot_timing_diagram ⟨["A", "B"], [0, 1], [[5, 0], [0, 5]], 2⟩
      [(0, true), (1, true)] [] [] [] (-100) (-100) (6 / 5) = some timingExampleRes ∧
    timingExampleRes.logic_threshold = 7 / 2 ∧
    timingExampleRes.vmax = 5 := by
  have h := timing_auto_threshold _ _ _ _ _ _ _ _ timing_example_eval
  refine ⟨timing_example_eval, ?_, rfl⟩
  rw [h.1]
  norm_num [timingExampleRes]

theorem applyAdd_toPyOp (pending : ArithOp) (h : pending = .add ∨ pending = .sub)
    (a b : ℚ) : applyAddOp (toPyOp pending) a b = arithApplyAdd pending a b := by
  rcases h with rfl | rfl <;> rfl

theorem pyChainGo_eq_arithChainGo :
    ∀ (rest : List (ArithOp × ℚ)) (acc cur : ℚ) (pending : ArithOp),
      pending = .add ∨ pending = .sub →
      pyEvalChainGo acc (toPyOp pending) cur (rest.map (fun p => (toPyOp p.1, p.2))) =
        arithEvalChainGo acc pending cur rest := by
  intro rest
  induction rest with
  | nil =>
    intro acc cur pending hp
    simp [pyEvalChainGo, arithEvalChainGo, applyAdd_toPyOp pending hp]
  | cons p t ih =>
    intro acc cur pending hp
    obtain ⟨op, v⟩ := p
    cases op with
    | mul =>
      have hstep := ih acc (cur * v) pending hp
      simpa [pyEvalChainGo, arithEvalChainGo, isMulLevel, applyMulOp, toPyOp] using hstep
    | div =>
      by_cases hv : v = 0
      · simp [pyEvalChainGo, arithEvalChainGo, isMulLevel, applyMulOp, toPyOp, hv]
      · have hstep := ih acc (cur / v) pending hp
        simpa [pyEvalChainGo, arithEvalChainGo, isMulLevel, applyMulOp, toPyOp, hv]
          using hstep
    | add =>
      have hstep1 : pyEvalChainGo acc (toPyOp pending) cur
          (((ArithOp.add, v) :: t).map (fun p => (toPyOp p.1, p.2))) =
          pyEvalChainGo (applyAddOp (toPyOp pending) acc cur) PyOp.add v
            (t.map (fun p => (toPyOp p.1, p.2))) := rfl
      have hstep2 : arithEvalChainGo acc pending cur ((ArithOp.add, v) :: t) =
          arithEvalChainGo (arithApplyAdd pending acc cur) .add v t := rfl
      rw [hstep1, hstep2, applyAdd_toPyOp pending hp]
      exact ih (arithApplyAdd pending acc cur) v .add (Or.inl rfl)
    | sub =>
      have hstep1 : pyEvalChainGo acc (toPyOp pending) cur
          (((ArithOp.sub, v) :: t).map (fun p => (toPyOp p.1, p.2))) =
          pyEvalChainGo (applyAddOp (toPyOp pending) acc cur) PyOp.sub v
            (t.map (fun p => (toPyOp p.1, p.2))) := rfl
      have hstep2 : arithEvalChainGo acc pending cur ((ArithOp.sub, v) :: t) =
          arithEvalChainGo (arithApplyAdd pending acc cur) .sub v t := rfl
      rw [hstep1, hstep2, applyAdd_toPyOp pending hp]
      exact ih (arithApplyAdd pending acc cur) v .sub (Or.inr rfl)

theorem pyChain_eq_arithChain (first : ℚ) (rest : List (ArithOp × ℚ)) :
    pyEvalChain first (rest.map (fun p => (toPyOp p.1, p.2))) =
      arithEvalChain first rest :=
  pyChainGo_eq_arithChainGo rest 0 first .add (Or.inl rfl)

theorem parse_four_op (t : String) (h : t = "+" ∨ t = "-" ∨ t = "*" ∨ t = "/") :
    ∃ op : ArithOp, parseArithOp t = some op ∧ parsePyOp t = some (toPyOp op) := by
  rcases h with rfl | rfl | rfl | rfl
  exacts [⟨.add, rfl, rfl⟩, ⟨.sub, rfl, rfl⟩, ⟨.mul, rfl, rfl⟩, ⟨.div, rfl, rfl⟩]

theorem parse_list_four :
    ∀ (opToks : List String),
      (∀ t ∈ opToks, t = "+" ∨ t = "-" ∨ t = "*" ∨ t = "/") →
      ∃ ops : List ArithOp,
        mapExcept (fun t => match parseArithOp t with
          | some op => Except.ok op
          | none => Except.error PlotFault.syntaxFault) opToks = .ok ops ∧
        mapExcept (fun t => match parsePyOp t with
          | some op => Except.ok op
          | none => Except.error PlotFault.evalCrash) opToks = .ok (ops.map toPyOp) := by
  intro opToks
  induction opToks with
  | nil => intro _; exact ⟨[], rfl, rfl⟩
  | cons t ts ih =>
    intro h
    obtain ⟨op, hA, hP⟩ := parse_four_op t (h t (List.mem_cons_self t ts))
    obtain ⟨ops, hAs, hPs⟩ := ih (fun s hs => h s (List.mem_cons_of_mem t hs))
    refine ⟨op :: ops, ?_, ?_⟩
    · simp [mapExcept, hA, hAs]
    · simp [mapExcept, hP, hPs]

theorem pyRow_eq_arithRow (combo : List (List ℚ)) (opToks : List String) (j : Nat)
    (hops : ∀ t ∈ opToks, t = "+" ∨ t = "-" ∨ t = "*" ∨ t = "/") :
    pyEvalRow combo opToks j = arithEvalRow combo opToks j := by
  unfold pyEvalRow arithEvalRow
  cases hvals : mapExcept (fun series =>
      match series.get? j with
      | some v => Except.ok v
      | none => Except.error PlotFault.indexCrash) combo with
  | error e => rfl
  | ok vals =>
    obtain ⟨ops, hAs, hPs⟩ := parse_list_four opToks hops
    rw [hAs, hPs]
    dsimp only
    cases vals with
    | nil => rfl
    | cons v vs =>
      dsimp only
      have hzip : (ops.map toPyOp).zip vs = (ops.zip vs).map (fun p => (toPyOp p.1, p.2)) := by
        rw [List.zip_map_left]
        rfl
      rw [hzip, pyChain_eq_arithChain]

theorem mapExcept_congr {α β ε : Type} (f g : α → Except ε β) :
    ∀ (l : List α), (∀ a ∈ l, f a = g a) → mapExcept f l = mapExcept g l := by
  intro l
  induction l with
  | nil => intro _; rfl
  | cons a t ih =>
    intro h
    have ha := h a (List.mem_cons_self a t)
    have ht := ih (fun x hx => h x (List.mem_cons_of_mem a hx))
    simp [mapExcept, ha, ht]

theorem prepare_arith_parts (d : DataExt) (volts : Nat) (tokens parts : List String)
    (combo : List (List ℚ))
    (h : plot_function_prepare d volts tokens = .ok (.arithForm parts combo)) :
    parts = stripTrailingEmpty tokens := by
  simp only [plot_function_prepare] at h
  split_ifs at h <;> simp at h
  exact h.1.symm

/-- C3 (amended): on accepted token sequences whose operator tokens all lie
in the four-operator set `+ - * /`, the evaluation performed by
`plot_function` (substitution into the operator expression, then the general
evaluator) computes exactly what the spec-modelled restricted four-operator
arithmetic grammar computes.  Operator tokens outside the set are not
rejected but reach the general evaluator — see the counterexample. -/
theorem plot_function_agrees_with_restricted_on_four_ops
    (d : DataExt) (volts : Nat) (tokens : List String)
    (hops : ∀ t ∈ oddPositionTokens (stripTrailingEmpty tokens),
      t = "+" ∨ t = "-" ∨ t = "*" ∨ t = "/") :
    plot_function d volts tokens = restricted_plot_function d volts tokens := by
  unfold plot_function restricted_plot_function
  cases hprep : plot_function_prepare d volts tokens with
  | error e => rfl
  | ok pe =>
    cases pe with
    | vsForm a b c => rfl
    | arithForm parts combo =>
      have hparts := prepare_arith_parts d volts tokens parts combo hprep
      have hser : pyEvalSeries combo (oddPositionTokens parts) =
          arithEvalSeries combo (oddPositionTokens parts) := by
        unfold pyEvalSeries arithEvalSeries
        refine mapExcept_congr _ _ _ (fun i _ => ?_)
        exact pyRow_eq_arithRow combo (oddPositionTokens parts) i (hparts ▸ hops)
      dsimp only
      rw [hser]

theorem mapExcept_append_error {α β ε : Type} (f : α → Except ε β) (a : α)
    (l₂ : List α) (e : ε) :
    ∀ (l₁ : List α), (∀ x ∈ l₁, ∃ b, f x = .ok b) → f a = .error e →
      mapExcept f (l₁ ++ a :: l₂) = .error e := by
  intro l₁
  induction l₁ with
  | nil => intro _ ha; simp [mapExcept, ha]
  | cons x t ih =>
    intro hok ha
    obtain ⟨b, hb⟩ := hok x (List.mem_cons_self x t)
    have ht := ih (fun y hy => hok y (List.mem_cons_of_mem x hy)) ha
    simp [mapExcept, hb, ht]

theorem range_split (n j : Nat) (h : j < n) :
    List.range n = List.range j ++ j :: (List.range (n - j - 1)).map (fun k => j + (k + 1)) := by
  obtain ⟨m, rfl⟩ : ∃ m, n = j + (m + 1) := ⟨n - j - 1, by omega⟩
  have harg : j + (m + 1) - j - 1 = m := by omega
  rw [harg, List.range_add, List.range_succ_eq_map, List.map_cons, List.map_map]
  rfl

/-- C4: when the pipeline reaches elementwise evaluation and some sample row
is the first to raise an arithmetic fault (division by zero included), the
whole evaluation aborts with that single recoverable fault and no partial
series reaches the render surface. -/
theorem plot_function_aborts_on_arithmetic_fault
    (d : DataExt) (volts : Nat) (tokens parts : List String)
    (combo : List (List ℚ)) (j : Nat)
    (hprep : plot_function_prepare d volts tokens = .ok (.arithForm parts combo))
    (hj : j < (combo.getD 0 []).length)
    (hfault : pyEvalRow combo (oddPositionTokens parts) j = .error .arithmeticFault)
    (hfirst : ∀ i, i < j → ∃ v, pyEvalRow combo (oddPositionTokens parts) i = .ok v) :
    plot_function d volts tokens = .error .arithmeticFault := by
  have hser : pyEvalSeries combo (oddPositionTokens parts) = .error .arithmeticFault := by
    unfold pyEvalSeries
    rw [range_split _ j hj]
    exact mapExcept_append_error _ _ _ _ _
      (fun x hx => hfirst x (List.mem_range.mp hx)) hfault
  simp only [plot_function, hprep]
  rw [hser]

/-- C3 counterexample: the accepted token sequence `v1 // v2` is evaluated
through the general evaluator — the floor division succeeds and yields 3 —
while the restricted four-operator grammar of the spec rejects the operator
token as a syntax fault.  The evaluator therefore accepts inputs outside the
four-operator grammar and hands them to a general-purpose evaluation path. -/
theorem plot_function_floordiv_counterexample :
    plot_function ⟨["v1", "v2"], [0], [[7], [2]], 2⟩ 2 ["v1", "//", "v2"] =
      .ok (.funcPlot [0] [3] "v1 // v2") ∧
    restricted_plot_function ⟨["v1", "v2"], [0], [[7], [2]], 2⟩ 2 ["v1", "//", "v2"] =
      .error .syntaxFault := by
  have hprep : plot_function_prepare ⟨["v1", "v2"], [0], [[7], [2]], 2⟩ 2
      ["v1", "//", "v2"] = .ok (.arithForm ["v1", "//", "v2"] [[7], [2]]) := by decide
  have hodd : oddPositionTokens ["v1", "//", "v2"] = ["//"] := rfl
  constructor
  · have hser : pyEvalSeries [[7], [2]] ["//"] = .ok [3] := by
      have hop : parsePyOp "//" = some PyOp.floordiv := rfl
      norm_num [pyEvalSeries, pyEvalRow, mapExcept, pyEvalChain, pyEvalChainGo,
        isMulLevel, applyMulOp, applyAddOp, hop, List.range_succ]
    simp only [plot_function, hprep, hodd]
    rw [hser]
    rfl
  · have hser : arithEvalSeries [[7], [2]] ["//"] = .error .syntaxFault := by
      have hop : parseArithOp "//" = none := rfl
      norm_num [arithEvalSeries, arithEvalRow, mapExcept, hop, List.range_succ]
    simp only [restricted_plot_function, hprep, hodd]
    rw [hser]

/-- C3 witness: on the four-operator input `v1 + v2` with `v1 = [1, 2, 3]`
and `v2 = [10, 20, 30]`, the code agrees with the restricted grammar and
both produce `[11, 22, 33]`. -/
theorem plot_function_agrees_with_restricted_on_four_ops_witness :
    plot_function ⟨["v1", "v2"], [0, 1, 2], [[1, 2, 3], [10, 20, 30]], 2⟩ 2
        ["v1", "+", "v2"] =
      restricted_plot_function ⟨["v1", "v2"], [0, 1, 2], [[1, 2, 3], [10, 20, 30]], 2⟩ 2
        ["v1", "+", "v2"] ∧
    plot_function ⟨["v1", "v2"], [0, 1, 2], [[1, 2, 3], [10, 20, 30]], 2⟩ 2
        ["v1", "+", "v2"] = .ok (.funcPlot [0, 1, 2] [11, 22, 33] "v1 + v2") := by
  constructor
  · exact plot_function_agrees_with_restricted_on_four_ops _ 2 ["v1", "+", "v2"] (by decide)
  · have hprep : plot_function_prepare
        ⟨["v1", "v2"], [0, 1, 2], [[1, 2, 3], [10, 20, 30]], 2⟩ 2 ["v1", "+", "v2"] =
        .ok (.arithForm ["v1", "+", "v2"] [[1, 2, 3], [10, 20, 30]]) := by decide
    have hop : parsePyOp "+" = some PyOp.add := rfl
    have hser : pyEvalSeries [[1, 2, 3], [10, 20, 30]] ["+"] = .ok [11, 22, 33] := by
      norm_num [pyEvalSeries, pyEvalRow, mapExcept, pyEvalChain, pyEvalChainGo,
        isMulLevel, applyMulOp, applyAddOp, hop, List.range_succ]
    have hodd : oddPositionTokens ["v1", "+", "v2"] = ["+"] := rfl
    simp only [plot_function, hprep, hodd]
    rw [hser]
    rfl

/-- C4 witness: the spec example — `v1 / v2` with a zero sample in `v2` at
index 1 aborts the whole evaluation with the single recoverable arithmetic
fault; no partial series is produced. -/
theorem plot_function_aborts_on_arithmetic_fault_witness :
    plot_function ⟨["v1", "v2"], [0, 1], [[1, 2], [1, 0]], 2⟩ 2 ["v1", "/", "v2"] =
      .error .arithmeticFault := by
  have hop : parsePyOp "/" = some PyOp.div := rfl
  refine plot_function_aborts_on_arithmetic_fault
    ⟨["v1", "v2"], [0, 1], [[1, 2], [1, 0]], 2⟩ 2 ["v1", "/", "v2"]
    ["v1", "/", "v2"] [[1, 2], [1, 0]] 1 (by decide) (by decide) ?_ ?_
  · norm_num [pyEvalRow, mapExcept, pyEvalChain, pyEvalChainGo,
      isMulLevel, applyMulOp, applyAddOp, hop]
  · intro i hi
    have hi0 : i = 0 := by omega
    subst hi0
    refine ⟨1, ?_⟩
    norm_num [pyEvalRow, mapExcept, pyEvalChain, pyEvalChainGo,
      isMulLevel, applyMulOp, applyAddOp, hop]

end PlotWindow
